import Mathlib

/-!
Shallow embedding of `src/script/utils/data_recorder.py` (class `DataRecorder`)
and proofs of the specification claims about it.

Records are string-keyed mappings with string values (the spider produces
string fields), modelled as association lists in insertion order; Python's
`set` of existing keys is modelled as a duplicate-free list with
membership-tested insertion.
-/

namespace DataRec

/-- A record: an ordered mapping from field name to value
(Python `Dict[str, str]` as produced by the spiders). -/
abbrev Rec := List (String × String)

/-- `item.get(k)`: value of field `k`, `none` when the field is absent. -/
def getField (r : Rec) (k : String) : Option String :=
  (r.find? (fun p => p.1 == k)).map (fun p => p.2)

/-- String order used for Python's `sorted`: lexicographic comparison of the
code-point sequences (what Python string comparison does).  Stated on
`String.data` so that it evaluates inside the kernel. -/
def strLe (s t : String) : Prop :=
  s.data ≤ t.data

instance : DecidableRel strLe := fun s t =>
  inferInstanceAs (Decidable (s.data ≤ t.data))

theorem strLe_iff (s t : String) : strLe s t ↔ s ≤ t :=
  (@String.le_iff_toList_le s t).symm

instance : IsTotal String strLe :=
  ⟨fun a b => le_total a.data b.data⟩

instance : IsTrans String strLe :=
  ⟨fun _ _ _ h1 h2 => le_trans h1 h2⟩

/-- Comparison used by Python's `sorted(data.items())`: tuples compare
lexicographically, first component first. -/
def pairLe (a b : String × String) : Prop :=
  a.1.data < b.1.data ∨ (a.1 = b.1 ∧ a.2.data ≤ b.2.data)

instance : DecidableRel pairLe := fun a b =>
  inferInstanceAs (Decidable (a.1.data < b.1.data ∨ (a.1 = b.1 ∧ a.2.data ≤ b.2.data)))

/-- `sorted(data.items())` in `_generate_data_hash`. -/
def sortItems (r : Rec) : Rec :=
  r.insertionSort pairLe

/-- Executable stand-in for `hashlib.md5(s.encode("utf-8")).hexdigest()`:
a deterministic string-to-string hash.  The claims rely only on the digest
being a fixed deterministic function of its input string. -/
def md5HexDigest (s : String) : String :=
  toString (s.data.foldl (fun h c => (h * 131 + c.toNat) % 4294967296) 5381)

/-- `DataRecorder._generate_data_hash`: stringify the sorted item list and
hash it. -/
def generateDataHash (r : Rec) : String :=
  md5HexDigest (toString (sortItems r))

/-- The key `add_data` computes for a record (lines 58–61 and 81–83 of the
source, which are identical): `item.get(primary_key)` when that is not
`None`, otherwise the content hash. -/
def keyOf (pk : String) (item : Rec) : String :=
  match getField item pk with
  | some v => v
  | none => generateDataHash item

/-- Python `set.add` on the key set, modelled on a duplicate-free list. -/
def insertKey (ks : List String) (k : String) : List String :=
  if ks.contains k then ks else ks ++ [k]

/-- The key function as claim C3 states it: the primary-key value when
present AND non-empty, otherwise the content hash.  (Spec-side definition,
to be compared with `keyOf` from the source.) -/
def claimedKeyOf (pk : String) (item : Rec) : String :=
  match getField item pk with
  | some v => if v = "" then generateDataHash item else v
  | none => generateDataHash item

/-- SQLite connection handle, abstracted: `closed` tracks whether the
handle was already released (`sqlite3` treats closing a closed connection
as a no-op) and `failOnClose` whether the underlying release will fail
(e.g. unfinalised statements / I/O error), in which case Python's
`Connection.close()` raises. -/
structure Conn where
  closed : Bool
  failOnClose : Bool
deriving DecidableEq, Repr

/-- State of a `DataRecorder` instance. -/
structure DataRecorder where
  output_file : String
  primary_key : String
  db_table : String
  data : List Rec
  existing_keys : List String
  conn : Option Conn
deriving DecidableEq, Repr

/-- Loop body of the incremental branch of `add_data` (lines 56–67): the
accumulator carries `new_data` and the live `existing_keys` set; a record
is admitted exactly when its key is not yet in the set, and its key is then
added. -/
def admitStep (pk : String) (acc : List Rec × List String) (item : Rec) :
    List Rec × List String :=
  let k := keyOf pk item
  if acc.2.contains k then acc
  else (acc.1 ++ [item], acc.2 ++ [k])

/-- Loop body of the non-incremental branch of `add_data` (lines 80–84):
every record's key is added to the set. -/
def addKeyStep (pk : String) (ks : List String) (item : Rec) : List String :=
  insertKey ks (keyOf pk item)

/-- `DataRecorder.add_data(data, incremental)` (lines 39–84).  Also returns
the number of records reported added (the printed count; `0` when the
"没有新数据需要添加" branch is taken or the input is empty). -/
def add_data (r : DataRecorder) (data : List Rec) (incremental : Bool) :
    DataRecorder × Nat :=
  if data.isEmpty then (r, 0)
  else if incremental && !r.existing_keys.isEmpty then
    let res := data.foldl (admitStep r.primary_key) ([], r.existing_keys)
    ({ r with data := r.data ++ res.1, existing_keys := res.2 }, res.1.length)
  else
    ({ r with
        data := r.data ++ data,
        existing_keys := data.foldl (addKeyStep r.primary_key) r.existing_keys },
     data.length)

/-- `DataRecorder.clear_data` (lines 86–90). -/
def clear_data (r : DataRecorder) : DataRecorder :=
  { r with data := [] }

end DataRec

namespace DataRec

/-- C3 counterexample input: a record whose primary-key field holds the
empty string. -/
def emptyPkRec : Rec := [("id", "")]

/-- C3: contrary to the claim, a record whose primary-key field holds an
empty value keeps that empty value as its key; it does not fall back to the
content hash. -/
theorem C3_counterexample :
    keyOf "id" emptyPkRec = "" ∧ keyOf "id" emptyPkRec ≠ generateDataHash emptyPkRec := by
  constructor
  · rfl
  · decide

/-- C3 (amended): the computed key equals the primary-key value whenever the
field is present — even when that value is empty — and equals the
deterministic content hash (sorted field-value pairs, hashed) exactly when
the field is absent; the hash depends only on the sorted item list. -/
theorem C3_amended :
    (∀ pk r v, getField r pk = some v → keyOf pk r = v) ∧
    (∀ pk r, getField r pk = none → keyOf pk r = generateDataHash r) ∧
    (∀ r r2, sortItems r = sortItems r2 → generateDataHash r = generateDataHash r2) := by
  refine ⟨?_, ?_, ?_⟩
  · intro pk r v h
    simp [keyOf, h]
  · intro pk r h
    simp [keyOf, h]
  · intro r r2 h
    simp [generateDataHash, h]

theorem mem_insertKey (ks : List String) (k a : String) (h : a ∈ ks ∨ a = k) :
    a ∈ insertKey ks k := by
  unfold insertKey
  split
  · rcases h with h | rfl
    · exact h
    · exact List.elem_iff.mp (by assumption)
  · rcases h with h | rfl
    · exact List.mem_append_left _ h
    · exact List.mem_append_right _ (List.mem_singleton.mpr rfl)

theorem admitStep_keys_mono (pk : String) (acc : List Rec × List String) (item : Rec)
    (a : String) (h : a ∈ acc.2) : a ∈ (admitStep pk acc item).2 := by
  simp only [admitStep]
  split
  · exact h
  · exact List.mem_append_left _ h

theorem admitStep_key_mem (pk : String) (acc : List Rec × List String) (item : Rec) :
    keyOf pk item ∈ (admitStep pk acc item).2 := by
  simp only [admitStep]
  split
  · exact List.elem_iff.mp (by assumption)
  · exact List.mem_append_right _ (List.mem_singleton.mpr rfl)

theorem admitFold_keys_mono (pk : String) (L : List Rec) :
    ∀ acc : List Rec × List String, ∀ a ∈ acc.2,
      a ∈ (L.foldl (admitStep pk) acc).2 := by
  induction L with
  | nil => intro acc a h; exact h
  | cons hd tl ih =>
    intro acc a h
    exact ih (admitStep pk acc hd) a (admitStep_keys_mono pk acc hd a h)

theorem admitFold_keys_mem (pk : String) (L : List Rec) :
    ∀ acc : List Rec × List String, ∀ item ∈ L,
      keyOf pk item ∈ (L.foldl (admitStep pk) acc).2 := by
  induction L with
  | nil => intro acc item h; cases h
  | cons hd tl ih =>
    intro acc item h
    rcases List.mem_cons.mp h with rfl | h
    · exact admitFold_keys_mono pk tl (admitStep pk acc item) _
        (admitStep_key_mem pk acc item)
    · exact ih (admitStep pk acc hd) item h

theorem admitFold_noop (pk : String) (L : List Rec) :
    ∀ l0 ks, (∀ item ∈ L, keyOf pk item ∈ ks) →
      L.foldl (admitStep pk) (l0, ks) = (l0, ks) := by
  induction L with
  | nil => intro l0 ks _; rfl
  | cons hd tl ih =>
    intro l0 ks h
    have hmem0 : keyOf pk hd ∈ ks := h hd (List.mem_cons_self hd tl)
    have hstep : admitStep pk (l0, ks) hd = (l0, ks) := by
      simp [admitStep, hmem0]
    rw [List.foldl_cons, hstep]
    exact ih l0 ks fun item hi => h item (List.mem_cons_of_mem hd hi)

theorem addKeyFold_mono (pk : String) (L : List Rec) :
    ∀ ks, ∀ a ∈ ks, a ∈ L.foldl (addKeyStep pk) ks := by
  induction L with
  | nil => intro ks a h; exact h
  | cons hd tl ih =>
    intro ks a h
    exact ih (addKeyStep pk ks hd) a (mem_insertKey ks (keyOf pk hd) a (Or.inl h))

theorem addKeyFold_mem (pk : String) (L : List Rec) :
    ∀ ks, ∀ item ∈ L, keyOf pk item ∈ L.foldl (addKeyStep pk) ks := by
  induction L with
  | nil => intro ks item h; cases h
  | cons hd tl ih =>
    intro ks item h
    rcases List.mem_cons.mp h with rfl | h
    · exact addKeyFold_mono pk tl (addKeyStep pk ks item) _
        (mem_insertKey ks (keyOf pk item) _ (Or.inr rfl))
    · exact ih (addKeyStep pk ks hd) item h

/-- After a call of `add_data` with `incremental=true`, the primary key is
unchanged, every input record's key is in the known-key index, and the index
has only grown. -/
theorem add_data_true_keys (r : DataRecorder) (L : List Rec) :
    (add_data r L true).1.primary_key = r.primary_key ∧
    (∀ item ∈ L, keyOf r.primary_key item ∈ (add_data r L true).1.existing_keys) ∧
    (∀ a ∈ r.existing_keys, a ∈ (add_data r L true).1.existing_keys) := by
  by_cases hL : L.isEmpty
  · have : L = [] := by simpa using hL
    subst this
    simp [add_data]
  · have hL' : L.isEmpty = false := by simpa using hL
    by_cases hk : r.existing_keys.isEmpty
    · have hk' : r.existing_keys.isEmpty = true := hk
      have heq : add_data r L true
          = ({ r with
                data := r.data ++ L
                existing_keys := L.foldl (addKeyStep r.primary_key) r.existing_keys },
             L.length) := by
        simp [add_data, hL', hk']
      rw [heq]
      exact ⟨rfl, fun item h => addKeyFold_mem _ L _ item h,
        fun a h => addKeyFold_mono _ L _ a h⟩
    · have hk' : r.existing_keys.isEmpty = false := by simpa using hk
      have heq : add_data r L true
          = ({ r with
                data := r.data ++ (L.foldl (admitStep r.primary_key) ([], r.existing_keys)).1
                existing_keys := (L.foldl (admitStep r.primary_key) ([], r.existing_keys)).2 },
             (L.foldl (admitStep r.primary_key) ([], r.existing_keys)).1.length) := by
        simp [add_data, hL', hk']
      rw [heq]
      exact ⟨rfl, fun item h => admitFold_keys_mem _ L _ item h,
        fun a h => admitFold_keys_mono _ L _ a h⟩

theorem add_data_true_keys_ne_nil (r : DataRecorder) (L : List Rec) (hL : L ≠ []) :
    (add_data r L true).1.existing_keys ≠ [] := by
  obtain ⟨x, hx⟩ := List.exists_mem_of_ne_nil L hL
  exact List.ne_nil_of_mem ((add_data_true_keys r L).2.1 x hx)

/-- C1: admitting the same record list twice with `incremental=true` is
idempotent — the second call admits zero records and returns the recorder
state (pending buffer and known-key index) unchanged. -/
theorem C1_dedup_idempotent (r : DataRecorder) (L : List Rec) :
    add_data (add_data r L true).1 L true = ((add_data r L true).1, 0) := by
  by_cases hL : L.isEmpty
  · have : L = [] := by simpa using hL
    subst this
    simp [add_data]
  · have hLne : L ≠ [] := by simpa using hL
    have hL' : L.isEmpty = false := by simpa using hL
    obtain ⟨hpk, hmem, _⟩ := add_data_true_keys r L
    have hne := add_data_true_keys_ne_nil r L hLne
    set r1 := (add_data r L true).1 with hr1def
    have hkeys : ∀ item ∈ L, keyOf r1.primary_key item ∈ r1.existing_keys := by
      intro item hi
      rw [hpk]
      exact hmem item hi
    have hne' : r1.existing_keys.isEmpty = false := by simpa using hne
    have hfold := admitFold_noop r1.primary_key L [] r1.existing_keys hkeys
    have heq2 : add_data r1 L true
        = ({ r1 with
              data := r1.data ++ (L.foldl (admitStep r1.primary_key) ([], r1.existing_keys)).1
              existing_keys := (L.foldl (admitStep r1.primary_key) ([], r1.existing_keys)).2 },
           (L.foldl (admitStep r1.primary_key) ([], r1.existing_keys)).1.length) := by
      simp [add_data, hL', hne']
    rw [heq2, hfold]
    simp

/-- C3 amended, witnessed at concrete inputs: a present key is used as-is,
an absent key falls back to the hash, and the hash is stable under field
reordering. -/
theorem C3_amended_witness :
    keyOf "id" [("id", "x")] = "x" ∧
    keyOf "id" [("a", "1")] = generateDataHash [("a", "1")] ∧
    generateDataHash [("a", "1"), ("b", "2")] = generateDataHash [("b", "2"), ("a", "1")] :=
  ⟨C3_amended.1 "id" [("id", "x")] "x" rfl,
   C3_amended.2.1 "id" [("a", "1")] rfl,
   C3_amended.2.2 [("a", "1"), ("b", "2")] [("b", "2"), ("a", "1")] (by decide)⟩

end DataRec

namespace DataRec

/-- Fresh recorder state as produced by construction against a missing
target file: empty buffer, empty known-key index. -/
def freshRecorder : DataRecorder :=
  { output_file := "jobs.json"
    primary_key := "id"
    db_table := "data"
    data := []
    existing_keys := []
    conn := none }

/-- The spec invariant of claim C4: the pending buffer never holds two
records with the same computed key. -/
def noDupKeys (r : DataRecorder) : Prop :=
  r.data.Pairwise fun a b => keyOf r.primary_key a ≠ keyOf r.primary_key b

instance (r : DataRecorder) : Decidable (noDupKeys r) :=
  inferInstanceAs (Decidable (List.Pairwise _ _))

/-- Buffer/index coupling invariant: buffer keys are pairwise distinct and
every buffered record's key is in the known-key index. -/
def buffInv (r : DataRecorder) : Prop :=
  noDupKeys r ∧ ∀ item ∈ r.data, keyOf r.primary_key item ∈ r.existing_keys

instance (r : DataRecorder) : Decidable (buffInv r) :=
  inferInstanceAs (Decidable (_ ∧ _))

/-- A sequence of incremental `add_data` calls. -/
def admitAll (r : DataRecorder) (batches : List (List Rec)) : DataRecorder :=
  batches.foldl (fun s L => (add_data s L true).1) r

/-- C4: the claimed invariant fails as stated.  On a fresh recorder (empty
known-key index) an incremental call falls through to the unconditional
branch, so a batch containing the same record twice is admitted twice and
the buffer holds two records with equal computed keys. -/
theorem C4_counterexample :
    ¬ noDupKeys (add_data freshRecorder [[("id", "1")], [("id", "1")]] true).1 := by
  decide

/-- Invariant carried through the incremental-admission fold: starting from
an accumulator whose admitted list has pairwise-distinct keys, all of them
in the live key set and none of them in the initial key set `ks0` (which the
live set contains), the fold preserves all four properties. -/
theorem admitFold_inv (pk : String) (ks0 : List String) (L : List Rec) :
    ∀ acc : List Rec × List String,
      (∀ k ∈ ks0, k ∈ acc.2) →
      (acc.1.Pairwise fun a b => keyOf pk a ≠ keyOf pk b) →
      (∀ x ∈ acc.1, keyOf pk x ∈ acc.2) →
      (∀ x ∈ acc.1, keyOf pk x ∉ ks0) →
      ((∀ k ∈ ks0, k ∈ (L.foldl (admitStep pk) acc).2) ∧
       ((L.foldl (admitStep pk) acc).1.Pairwise fun a b => keyOf pk a ≠ keyOf pk b) ∧
       (∀ x ∈ (L.foldl (admitStep pk) acc).1, keyOf pk x ∈ (L.foldl (admitStep pk) acc).2) ∧
       (∀ x ∈ (L.foldl (admitStep pk) acc).1, keyOf pk x ∉ ks0)) := by
  induction L with
  | nil => intro acc h1 h2 h3 h4; exact ⟨h1, h2, h3, h4⟩
  | cons hd tl ih =>
    intro acc h1 h2 h3 h4
    rw [List.foldl_cons]
    by_cases hc : acc.2.contains (keyOf pk hd)
    · have hstep : admitStep pk acc hd = acc := by
        simp only [admitStep, hc, if_true]
      rw [hstep]
      exact ih acc h1 h2 h3 h4
    · have hc' : acc.2.contains (keyOf pk hd) = false := by simpa using hc
      have hstep : admitStep pk acc hd = (acc.1 ++ [hd], acc.2 ++ [keyOf pk hd]) := by
        simp only [admitStep, hc', Bool.false_eq_true, if_false]
      have hnotmem : keyOf pk hd ∉ acc.2 := fun hm =>
        hc (List.elem_iff.mpr hm)
      rw [hstep]
      refine ih _ ?_ ?_ ?_ ?_
      · intro k hk
        exact List.mem_append_left _ (h1 k hk)
      · refine List.pairwise_append.mpr ⟨h2, List.pairwise_singleton _ _, ?_⟩
        intro a ha b hb
        rcases List.mem_singleton.mp hb with rfl
        intro he
        exact hnotmem (he ▸ h3 a ha)
      · intro x hx
        rcases List.mem_append.mp hx with hx | hx
        · exact List.mem_append_left _ (h3 x hx)
        · rcases List.mem_singleton.mp hx with rfl
          exact List.mem_append_right _ (List.mem_singleton.mpr rfl)
      · intro x hx
        rcases List.mem_append.mp hx with hx | hx
        · exact h4 x hx
        · rcases List.mem_singleton.mp hx with rfl
          exact fun hk => hnotmem (h1 _ hk)

/-- One incremental `add_data` call preserves the coupling invariant and the
non-emptiness of the known-key index. -/
theorem add_data_incremental_preserves (r : DataRecorder) (L : List Rec)
    (h : buffInv r) (hk : r.existing_keys ≠ []) :
    buffInv (add_data r L true).1 ∧ (add_data r L true).1.existing_keys ≠ [] := by
  by_cases hL : L.isEmpty
  · have : L = [] := by simpa using hL
    subst this
    simpa [add_data] using ⟨h, hk⟩
  · have hL' : L.isEmpty = false := by simpa using hL
    have hk' : r.existing_keys.isEmpty = false := by simpa using hk
    have heq : add_data r L true
        = ({ r with
              data := r.data ++ (L.foldl (admitStep r.primary_key) ([], r.existing_keys)).1
              existing_keys := (L.foldl (admitStep r.primary_key) ([], r.existing_keys)).2 },
           (L.foldl (admitStep r.primary_key) ([], r.existing_keys)).1.length) := by
      simp [add_data, hL', hk']
    obtain ⟨hmono, hpair, hmem, hnot⟩ :=
      admitFold_inv r.primary_key r.existing_keys L ([], r.existing_keys)
        (fun k hk => hk) List.Pairwise.nil (fun x hx => absurd hx (List.not_mem_nil x))
        (fun x hx => absurd hx (List.not_mem_nil x))
    rw [heq]
    obtain ⟨x0, hx0⟩ := List.exists_mem_of_ne_nil r.existing_keys hk
    refine ⟨⟨?_, ?_⟩, ?_⟩
    · refine List.pairwise_append.mpr ⟨h.1, hpair, ?_⟩
      intro a ha b hb he
      exact hnot b hb (he ▸ h.2 a ha)
    · intro item hi
      rcases List.mem_append.mp hi with hi | hi
      · exact hmono _ (h.2 item hi)
      · exact hmem item hi
    · exact List.ne_nil_of_mem (hmono x0 hx0)

/-- C4 (amended): as long as every admission happens through the incremental
path — `incremental=true` with a non-empty known-key index, starting from a
state whose buffer satisfies the coupling invariant — the pending buffer
never holds two records with the same computed key, over any sequence of
batches (batches may contain internal duplicates). -/
theorem C4_amended (r : DataRecorder) (batches : List (List Rec))
    (h : buffInv r) (hk : r.existing_keys ≠ []) :
    noDupKeys (admitAll r batches) := by
  suffices hs : buffInv (admitAll r batches) ∧ (admitAll r batches).existing_keys ≠ [] by
    exact hs.1.1
  induction batches generalizing r with
  | nil => exact ⟨h, hk⟩
  | cons b bs ih =>
    have hstep := add_data_incremental_preserves r b h hk
    simpa [admitAll] using ih (add_data r b true).1 hstep.1 hstep.2

/-- C4 amended, witnessed: a recorder seeded with key "0" admits the batch
sequence [[a], [a, b]] incrementally and ends with a duplicate-free buffer. -/
theorem C4_amended_witness :
    noDupKeys (admitAll
      { output_file := "jobs.json"
        primary_key := "id"
        db_table := "data"
        data := []
        existing_keys := ["0"]
        conn := none }
      [[[("id", "1")]], [[("id", "1")], [("id", "2")]]]) :=
  C4_amended _ _ (by decide) (by decide)

end DataRec

namespace DataRec

theorem mem_insertKey_iff (ks : List String) (k a : String) :
    a ∈ insertKey ks k ↔ a ∈ ks ∨ a = k := by
  constructor
  · intro h
    unfold insertKey at h
    split at h
    · exact Or.inl h
    · rcases List.mem_append.mp h with h | h
      · exact Or.inl h
      · exact Or.inr (List.mem_singleton.mp h)
  · exact mem_insertKey ks k a

theorem nodup_insertKey (ks : List String) (k : String) (h : ks.Nodup) :
    (insertKey ks k).Nodup := by
  unfold insertKey
  split
  · exact h
  · refine List.pairwise_append.mpr ⟨h, List.pairwise_singleton _ _, ?_⟩
    intro a ha b hb
    rcases List.mem_singleton.mp hb with rfl
    intro he
    subst he
    exact (by assumption : ¬ ks.contains a = true) (List.elem_iff.mpr ha)

/-- `fieldnames = set(); for item in self.data: fieldnames.update(item.keys())`
(the field-name union computed by every serializer), as a duplicate-free
list. -/
def fieldUnion (data : List Rec) : List String :=
  data.foldl (fun acc r => r.foldl (fun acc2 p => insertKey acc2 p.1) acc) []

/-- `fieldnames = sorted(fieldnames)`. -/
def sortedFieldUnion (data : List Rec) : List String :=
  (fieldUnion data).insertionSort strLe

theorem mem_keysFold (r : Rec) :
    ∀ acc a, a ∈ r.foldl (fun acc2 p => insertKey acc2 p.1) acc ↔
      a ∈ acc ∨ a ∈ r.map Prod.fst := by
  induction r with
  | nil => intro acc a; simp
  | cons hd tl ih =>
    intro acc a
    rw [List.foldl_cons, ih]
    rw [mem_insertKey_iff]
    simp [or_assoc]

theorem nodup_keysFold (r : Rec) :
    ∀ acc, acc.Nodup → (r.foldl (fun acc2 p => insertKey acc2 p.1) acc).Nodup := by
  induction r with
  | nil => intro acc h; exact h
  | cons hd tl ih =>
    intro acc h
    exact ih _ (nodup_insertKey acc hd.1 h)

theorem mem_fieldUnion_aux (data : List Rec) :
    ∀ acc a, a ∈ data.foldl (fun acc r => r.foldl (fun acc2 p => insertKey acc2 p.1) acc) acc ↔
      a ∈ acc ∨ ∃ r, r ∈ data ∧ a ∈ r.map Prod.fst := by
  induction data with
  | nil => intro acc a; simp
  | cons hd tl ih =>
    intro acc a
    rw [List.foldl_cons, ih, mem_keysFold]
    constructor
    · rintro ((h | h) | ⟨r, hr, ha⟩)
      · exact Or.inl h
      · exact Or.inr ⟨hd, List.mem_cons_self hd tl, h⟩
      · exact Or.inr ⟨r, List.mem_cons_of_mem hd hr, ha⟩
    · rintro (h | ⟨r, hr, ha⟩)
      · exact Or.inl (Or.inl h)
      · rcases List.mem_cons.mp hr with rfl | hr
        · exact Or.inl (Or.inr ha)
        · exact Or.inr ⟨r, hr, ha⟩

theorem mem_fieldUnion (data : List Rec) (a : String) :
    a ∈ fieldUnion data ↔ ∃ r, r ∈ data ∧ a ∈ r.map Prod.fst := by
  rw [fieldUnion, mem_fieldUnion_aux]
  simp

theorem nodup_fieldUnion (data : List Rec) : (fieldUnion data).Nodup := by
  unfold fieldUnion
  have : ∀ acc : List String, acc.Nodup →
      (data.foldl (fun acc r => r.foldl (fun acc2 p => insertKey acc2 p.1) acc) acc).Nodup := by
    induction data with
    | nil => intro acc h; exact h
    | cons hd tl ih => intro acc h; exact ih _ (nodup_keysFold hd acc h)
  exact this [] List.nodup_nil

theorem mem_sortedFieldUnion (data : List Rec) (a : String) :
    a ∈ sortedFieldUnion data ↔ ∃ r, r ∈ data ∧ a ∈ r.map Prod.fst := by
  rw [sortedFieldUnion, List.mem_insertionSort, mem_fieldUnion]

theorem sorted_sortedFieldUnion (data : List Rec) :
    (sortedFieldUnion data).Pairwise strLe :=
  List.sorted_insertionSort strLe (fieldUnion data)

theorem nodup_sortedFieldUnion (data : List Rec) :
    (sortedFieldUnion data).Nodup :=
  (List.perm_insertionSort strLe (fieldUnion data)).nodup_iff.mpr (nodup_fieldUnion data)

end DataRec

namespace DataRec

/-- SQLite table in the embedded database: column list and optional
PRIMARY KEY constraint fixed at CREATE TABLE time; each stored row keeps the
(column, value) pairs supplied by its INSERT statement. -/
structure Table where
  pkCol : Option String
  columns : List String
  rows : List Rec
deriving DecidableEq, Repr

/-- A single-file SQLite database: named tables. -/
structure SqliteDb where
  tables : List (String × Table)
deriving DecidableEq, Repr

/-- A freshly created database file. -/
def emptyDb : SqliteDb := { tables := [] }

def SqliteDb.getTable (db : SqliteDb) (n : String) : Option Table :=
  (db.tables.find? (fun p => p.1 == n)).map (fun p => p.2)

def SqliteDb.setTable (db : SqliteDb) (n : String) (t : Table) : SqliteDb :=
  if (db.tables.find? (fun p => p.1 == n)).isSome then
    { tables := db.tables.map (fun p => if p.1 == n then (n, t) else p) }
  else
    { tables := db.tables ++ [(n, t)] }

/-- One worksheet: a grid of cell rows. -/
abbrev Sheet := List (List String)

/-- The bytes at the recorder's target path, as each reader family can parse
them.  `corrupt` stands for existing bytes none of the readers can parse. -/
inductive Artifact
  | missing
  | jsonList (rows : List Rec)
  | csvFile (header : List String) (rows : List (List String))
  | mdFile (lines : List String)
  | sqliteFile (db : SqliteDb)
  | excelFile (sheets : List (String × Sheet))
  | corrupt
deriving DecidableEq, Repr

/-- `os.path.exists(self.output_file)`. -/
def Artifact.existsOnDisk : Artifact → Bool
  | .missing => false
  | _ => true

/-- `DataRecorder._record_to_csv` (lines 211–265), as a transformer of the
target-path artifact.  In the incremental-rewrite branch the code first runs
`open(self.output_file, "w")`, which truncates the target, and only then
re-opens the same path for reading to collect the prior rows: the read sees
the freshly truncated file (the buffered header has not been flushed, and a
bare header yields no rows in any case), so `existing_data` is always empty
and the rows previously in the file are not recovered. -/
def recordToCsv (prior : Artifact) (existing_keys : List String) (data : List Rec) :
    Artifact :=
  if data.isEmpty then prior
  else
    let fieldnames := sortedFieldUnion data
    let pendingRows := data.map fun item => fieldnames.map fun f => (getField item f).getD ""
    if prior.existsOnDisk && !existing_keys.isEmpty then
      let existing_data : List (List String) := []
      .csvFile fieldnames (existing_data ++ pendingRows)
    else
      .csvFile fieldnames pendingRows

/-- C2 evaluated at the failing input: flushing a buffer containing only
{id: 2, title: B} over an existing file holding the row (1, A), with a
non-empty known-key index, rewrites the file with ONLY the pending row —
the previously readable row is lost (the code truncates the target before
reading it back), and the rewrite happens in place on the target rather
than via a temporary buffer and swap. -/
theorem C2_prior_rows_lost :
    recordToCsv (.csvFile ["id", "title"] [["1", "A"]]) ["1"]
        [[("id", "2"), ("title", "B")]]
      = .csvFile ["id", "title"] [["2", "B"]] := by
  decide

end DataRec

namespace DataRec

/-- Markdown table computed by `_record_to_markdown` (lines 297–329) before
rendering: the field union filtered by `remove_columns`, then sorted, and
one cell row per buffered record. -/
structure MdTable where
  headers : List String
  rows : List (List String)
deriving DecidableEq, Repr

/-- Header and row computation of `_record_to_markdown`: Python's
`remove_columns = remove_columns or []`, headers = sorted([h for h in
fieldnames if h not in remove_columns]), and each data row is
`str(item.get(header, ""))` per remaining header (values are strings, so
`str` is the identity). -/
def mdTableOf (data : List Rec) (remove_columns : Option (List String)) : MdTable :=
  let rc := remove_columns.getD []
  let headers := ((fieldUnion data).filter (fun f => !rc.contains f)).insertionSort strLe
  { headers := headers
    rows := data.map fun item => headers.map fun f => (getField item f).getD "" }

/-- The `md_lines` list built by `_record_to_markdown`: header row,
separator row of `---` cells, then the data rows. -/
def renderMd (t : MdTable) : List String :=
  ("| " ++ String.intercalate " | " t.headers ++ " |")
    :: ("| " ++ String.intercalate " | " (List.replicate t.headers.length "---") ++ " |")
    :: t.rows.map fun row => "| " ++ String.intercalate " | " row ++ " |"

/-- `DataRecorder._record_to_markdown`: rewrites the target wholesale with
the rendered table, or returns without touching the file when the buffer is
empty. -/
def recordToMarkdown (prior : Artifact) (data : List Rec)
    (remove_columns : Option (List String)) : Artifact :=
  if data.isEmpty then prior
  else .mdFile (renderMd (mdTableOf data remove_columns))

/-- C7: every tabular flush (CSV, and Markdown under the default empty
column filter) emits a header equal to the sorted duplicate-free union of
all field names of the buffered records, and every emitted data row has
exactly one entry per header field — the record's value there, or the
explicit empty-string placeholder when the record lacks the field. -/
theorem C7_header_union_rows_total (data : List Rec) (prior : Artifact)
    (ks : List String) (h : data.isEmpty = false) :
    recordToCsv prior ks data
        = .csvFile (sortedFieldUnion data)
            (data.map fun item => (sortedFieldUnion data).map fun f => (getField item f).getD "") ∧
    (mdTableOf data none).headers = sortedFieldUnion data ∧
    (mdTableOf data none).rows
        = data.map (fun item => (sortedFieldUnion data).map fun f => (getField item f).getD "") ∧
    (sortedFieldUnion data).Pairwise (fun a b => a ≤ b) ∧
    (sortedFieldUnion data).Nodup ∧
    (∀ f, f ∈ sortedFieldUnion data ↔ ∃ r, r ∈ data ∧ f ∈ r.map Prod.fst) := by
  have hheaders : (mdTableOf data none).headers = sortedFieldUnion data := by
    simp [mdTableOf, sortedFieldUnion]
  refine ⟨?_, hheaders, ?_, ?_, nodup_sortedFieldUnion data, fun f => mem_sortedFieldUnion data f⟩
  · simp only [recordToCsv, h, Bool.false_eq_true, if_false]
    split <;> simp
  · have hrows : (mdTableOf data none).rows
        = data.map fun item =>
            (mdTableOf data none).headers.map fun f => (getField item f).getD "" := rfl
    rw [hrows, hheaders]
  · exact (sorted_sortedFieldUnion data).imp fun hab => (strLe_iff _ _).mp hab

/-- C7 witnessed on a concrete two-record buffer with fields {a, b} and
{a, c}: header is the sorted union [a, b, c] and both rows carry explicit
empty placeholders for their missing field. -/
theorem C7_header_union_rows_total_witness :
    recordToCsv .missing []
        [[("b", "2"), ("a", "1")], [("a", "3"), ("c", "4")]]
      = .csvFile ["a", "b", "c"] [["1", "2", ""], ["3", "", "4"]] := by
  have h := (C7_header_union_rows_total
    [[("b", "2"), ("a", "1")], [("a", "3"), ("c", "4")]] .missing [] rfl).1
  rw [h]
  decide

/-- C8: flushing to Markdown with a column filter that contains `b` emits
no header named `b`, and every data row is generated only from the
remaining headers, so no cell holds the filtered column's value; the flush
writes exactly the rendered table. -/
theorem C8_column_filter (data : List Rec) (rc : List String) (b : String)
    (prior : Artifact) (hb : b ∈ rc) (h : data.isEmpty = false) :
    b ∉ (mdTableOf data (some rc)).headers ∧
    (mdTableOf data (some rc)).rows
      = data.map (fun item =>
          (mdTableOf data (some rc)).headers.map fun f => (getField item f).getD "") ∧
    recordToMarkdown prior data (some rc) = .mdFile (renderMd (mdTableOf data (some rc))) := by
  refine ⟨?_, rfl, by simp [recordToMarkdown, h]⟩
  intro hmem
  have hmem2 : b ∈ (fieldUnion data).filter (fun f => !rc.contains f) :=
    (List.mem_insertionSort strLe).mp hmem
  have hpred := (List.mem_filter.mp hmem2).2
  rw [Bool.not_eq_true'] at hpred
  exact (by simpa using hpred : b ∉ rc) hb

/-- C8 witnessed: filtering column b from a buffer whose field union is
{a, b} leaves header [a] and rows drawn from column a only. -/
theorem C8_column_filter_witness :
    "b" ∉ (mdTableOf [[("a", "1"), ("b", "2")]] (some ["b"])).headers ∧
    recordToMarkdown .missing [[("a", "1"), ("b", "2")]] (some ["b"])
      = .mdFile (renderMd (mdTableOf [[("a", "1"), ("b", "2")]] (some ["b"]))) :=
  ⟨(C8_column_filter [[("a", "1"), ("b", "2")]] ["b"] "b" .missing
      (List.mem_singleton.mpr rfl) rfl).1,
   (C8_column_filter [[("a", "1"), ("b", "2")]] ["b"] "b" .missing
      (List.mem_singleton.mpr rfl) rfl).2.2⟩

end DataRec

namespace DataRec

/-- Do two rows conflict on primary-key column `c`?  (SQLite semantics:
a conflict needs both values present (non-NULL) and equal.) -/
def pkConflict (c : String) (newRow oldRow : Rec) : Bool :=
  match getField newRow c with
  | some v => getField oldRow c == some v
  | none => false

/-- `INSERT OR REPLACE`: rows conflicting on the table's PRIMARY KEY
constraint are deleted, then the new row is inserted.  A table created
without the constraint has nothing to conflict on. -/
def Table.insertOrReplace (t : Table) (row : Rec) : Table :=
  match t.pkCol with
  | some c => { t with rows := t.rows.filter (fun r0 => !pkConflict c row r0) ++ [row] }
  | none => { t with rows := t.rows ++ [row] }

/-- Plain `INSERT`; a `sqlite3.IntegrityError` on a primary-key conflict is
swallowed by the surrounding `except` clause, skipping the row. -/
def Table.insertPlain (t : Table) (row : Rec) : Table :=
  match t.pkCol with
  | some c =>
      if t.rows.any (fun r0 => pkConflict c row r0) then t
      else { t with rows := t.rows ++ [row] }
  | none => { t with rows := t.rows ++ [row] }

/-- `DataRecorder._record_to_sqlite` (lines 338–396) as a transformation of
the database contents: empty buffer is a no-op; otherwise the table is
created on first write (with the primary-key column as PRIMARY KEY when it
occurs among the sorted field names), and each buffered record is inserted
with `INSERT OR REPLACE` when the primary-key column is among the field
names and plain `INSERT` otherwise. -/
def recordToSqlite (pk tbl : String) (data : List Rec) (db : SqliteDb) : SqliteDb :=
  if data.isEmpty then db
  else
    let fieldnames := sortedFieldUnion data
    let db1 :=
      match db.getTable tbl with
      | some _ => db
      | none =>
          db.setTable tbl
            { pkCol := if fieldnames.contains pk then some pk else none
              columns := fieldnames
              rows := [] }
    data.foldl
      (fun d item =>
        let row : Rec := fieldnames.map fun f => (f, (getField item f).getD "")
        match d.getTable tbl with
        | none => d
        | some t =>
            d.setTable tbl
              (if fieldnames.contains pk then t.insertOrReplace row
               else t.insertPlain row))
      db1

/-- A record {id: k, title: t}. -/
def idTitleRec (k t : String) : Rec := [("id", k), ("title", t)]

/-- Recorder as constructed on a fresh (missing) `.db` target: empty
buffer, empty known-key index, open connection. -/
def dbRecorder0 : DataRecorder :=
  { output_file := "jobs.db"
    primary_key := "id"
    db_table := "data"
    data := []
    existing_keys := []
    conn := some { closed := false, failOnClose := false } }

/-- C6: admitting {id: K1, title: A}, flushing to the row store, then
admitting {id: K1, title: B} non-incrementally and flushing again leaves
exactly one row for K1, whose title is B — `INSERT OR REPLACE` keyed on the
`id` primary-key column. -/
theorem C6_rowstore_replace (K1 A B : String) :
    (recordToSqlite "id" "data"
        ((add_data ((add_data dbRecorder0 [idTitleRec K1 A] true).1)
            [idTitleRec K1 B] false).1).data
        (recordToSqlite "id" "data"
          ((add_data dbRecorder0 [idTitleRec K1 A] true).1).data emptyDb)).getTable "data"
      = some { pkCol := some "id"
               columns := ["id", "title"]
               rows := [idTitleRec K1 B] } := by
  have hconf : ∀ X Y : String,
      pkConflict "id" (idTitleRec K1 X) (idTitleRec K1 Y) = true :=
    fun _ _ => beq_self_eq_true (some K1)
  have hdata1 : ((add_data dbRecorder0 [idTitleRec K1 A] true).1).data
      = [idTitleRec K1 A] := rfl
  have hdata2 : ((add_data ((add_data dbRecorder0 [idTitleRec K1 A] true).1)
      [idTitleRec K1 B] false).1).data
      = [idTitleRec K1 A, idTitleRec K1 B] := rfl
  have hdb1 : recordToSqlite "id" "data" [idTitleRec K1 A] emptyDb
      = { tables := [("data",
            { pkCol := some "id"
              columns := ["id", "title"]
              rows := [idTitleRec K1 A] })] } := rfl
  have hrep : ∀ X Y : String,
      (({ pkCol := some "id"
          columns := ["id", "title"]
          rows := [idTitleRec K1 Y] } : Table).insertOrReplace (idTitleRec K1 X))
        = { pkCol := some "id"
            columns := ["id", "title"]
            rows := [idTitleRec K1 X] } := by
    intro X Y
    simp [Table.insertOrReplace, hconf]
  rw [hdata1, hdata2, hdb1]
  show some ((({ pkCol := some "id"
                 columns := ["id", "title"]
                 rows := [idTitleRec K1 A] } : Table).insertOrReplace
      (idTitleRec K1 A)).insertOrReplace (idTitleRec K1 B))
    = some { pkCol := some "id"
             columns := ["id", "title"]
             rows := [idTitleRec K1 B] }
  rw [hrep, hrep]

end DataRec

namespace DataRec

/-- `str.endswith(suffix)`, modelled on the code-point lists. -/
def endsWith (s suffix : String) : Bool :=
  suffix.data.isSuffixOf s.data

/-- `DataRecorder._init_sqlite` (lines 92–122), returning the loaded key
set.  On a missing file, `sqlite3.connect` creates a fresh database and no
table query runs.  On an existing file holding anything other than a SQLite
database, the very first `cursor.execute` (the `sqlite_master` probe)
raises `sqlite3.DatabaseError` ("file is not a database") and
`_init_sqlite` installs no handler for it, so construction propagates the
error.  On a valid database the primary-key column's non-NULL values are
collected when the table and column exist; a missing column
(`sqlite3.OperationalError`) is caught and leaves the key set empty. -/
def initSqlite (a : Artifact) (pk tbl : String) : Except String (List String) :=
  match a with
  | .missing => .ok []
  | .sqliteFile db =>
      match db.getTable tbl with
      | some t =>
          if t.columns.contains pk then
            .ok (t.rows.foldl
              (fun ks row =>
                match getField row pk with
                | some v => insertKey ks v
                | none => ks) [])
          else .ok []
      | none => .ok []
  | _ => .error "sqlite3.DatabaseError: file is not a database"

/-- `DataRecorder._load_existing_keys` (lines 124–151).  A missing file
loads nothing.  A `.json` target is parsed with `json.load` — any parse
failure is swallowed by the surrounding `except` with no keys collected.
A `.csv` target is read with `csv.DictReader`, keeping the non-empty
values of the primary-key column when that column is present in a row.
Any other extension has no loading branch, so the key set stays empty. -/
def loadExistingKeys (path : String) (a : Artifact) (pk : String) : List String :=
  match a with
  | .missing => []
  | a =>
    if endsWith path ".json" then
      match a with
      | .jsonList rows =>
          rows.foldl
            (fun ks r =>
              match getField r pk with
              | some v => insertKey ks v
              | none => ks) []
      | _ => []
    else if endsWith path ".csv" then
      match a with
      | .csvFile header rows =>
          rows.foldl
            (fun ks cells =>
              match ((header.zip cells).find? (fun p => p.1 == pk)).map (fun p => p.2) with
              | some v => if v = "" then ks else insertKey ks v
              | none => ks) []
      | _ => []
    else []

/-- `DataRecorder.__init__` (lines 16–37): a `.db` target runs
`_init_sqlite`, whose uncaught errors escape the constructor; every other
target loads keys via `_load_existing_keys`, which never raises. -/
def mkDataRecorder (path pk tbl : String) (a : Artifact) : Except String DataRecorder :=
  if endsWith path ".db" then
    (initSqlite a pk tbl).map fun ks =>
      { output_file := path
        primary_key := pk
        db_table := tbl
        data := []
        existing_keys := ks
        conn := some { closed := false, failOnClose := false } }
  else
    .ok { output_file := path
          primary_key := pk
          db_table := tbl
          data := []
          existing_keys := loadExistingKeys path a pk
          conn := none }

/-- Recorder state produced by a construction that loaded nothing. -/
def freshRecorderAt (path pk tbl : String) : DataRecorder :=
  { output_file := path
    primary_key := pk
    db_table := tbl
    data := []
    existing_keys := []
    conn := none }

/-- C5: contrary to the claim, constructing a recorder bound to a `.db`
target whose bytes cannot be parsed raises — `sqlite3.DatabaseError`
escapes `__init__` — instead of degrading to an empty known-key index. -/
theorem C5_counterexample :
    mkDataRecorder "jobs.db" "id" "data" .corrupt
      = .error "sqlite3.DatabaseError: file is not a database" := rfl

/-- C5 (amended): for every target path not ending in `.db`, construction
over unparsable bytes does not raise, yields an empty known-key index, and
a subsequent incremental `add_data` admits every input record (the
row-store path instead propagates the database error, see the
counterexample). -/
theorem C5_corrupt_resilience_non_db (path pk tbl : String)
    (h : endsWith path ".db" = false) :
    mkDataRecorder path pk tbl .corrupt = .ok (freshRecorderAt path pk tbl) ∧
    ∀ L : List Rec,
      (add_data (freshRecorderAt path pk tbl) L true).1.data = L ∧
      (add_data (freshRecorderAt path pk tbl) L true).2 = L.length := by
  constructor
  · have hload : loadExistingKeys path .corrupt pk = [] := by
      show (if endsWith path ".json" = true then ([] : List String)
            else if endsWith path ".csv" = true then [] else []) = []
      split
      · rfl
      · split
        · rfl
        · rfl
    simp [mkDataRecorder, h, freshRecorderAt, hload]
  · intro L
    by_cases hL : L.isEmpty
    · have : L = [] := by simpa using hL
      subst this
      simp [add_data, freshRecorderAt]
    · have hL' : L.isEmpty = false := by simpa using hL
      constructor
      · simp [add_data, hL', freshRecorderAt]
      · simp [add_data, hL', freshRecorderAt]

/-- C5 amended, witnessed at a `.csv` path over corrupt bytes: construction
succeeds with an empty index and a one-record incremental batch is admitted
in full. -/
theorem C5_corrupt_resilience_non_db_witness :
    mkDataRecorder "jobs.csv" "id" "data" .corrupt
      = .ok (freshRecorderAt "jobs.csv" "id" "data") ∧
    (add_data (freshRecorderAt "jobs.csv" "id" "data") [[("id", "1")]] true).1.data
      = [[("id", "1")]] := by
  have h := C5_corrupt_resilience_non_db "jobs.csv" "id" "data" (by decide)
  exact ⟨h.1, (h.2 [[("id", "1")]]).1⟩

end DataRec

namespace DataRec

/-- `sqlite3.Connection.close()` on the abstract handle: closing an
already-closed connection is a no-op; otherwise it raises when the
underlying release fails, else marks the handle closed. -/
def connClose (c : Conn) : Except String Conn :=
  if c.closed then .ok c
  else if c.failOnClose then .error "sqlite3 close failed"
  else .ok { c with closed := true }

/-- `DataRecorder.close` (lines 465–471): nothing happens when no
connection attribute exists; otherwise `self.conn.close()` is called with
no exception handler around it, so a release failure propagates. -/
def close (r : DataRecorder) : Except String DataRecorder :=
  match r.conn with
  | none => .ok r
  | some c => (connClose c).map fun c2 => { r with conn := some c2 }

/-- C9: contrary to the claim, `close` propagates a failure of the
underlying handle release: on a recorder holding an open row-store handle
whose release fails, `close` raises instead of logging. -/
theorem C9_counterexample :
    close { output_file := "jobs.db"
            primary_key := "id"
            db_table := "data"
            data := []
            existing_keys := []
            conn := some { closed := false, failOnClose := true } }
      = .error "sqlite3 close failed" := rfl

/-- C9 (amended): `close` returns normally when the recorder never acquired
a row-store handle, and when the handle release succeeds; in the latter
case a second `close` is a harmless no-op (`sqlite3` accepts closing an
already-closed connection).  A failing release, however, propagates — the
code installs no handler (see the counterexample). -/
theorem C9_close_behavior (r : DataRecorder) :
    (r.conn = none → close r = .ok r) ∧
    (∀ c, r.conn = some c → c.failOnClose = false →
      ∃ r2, close r = .ok r2 ∧ close r2 = .ok r2) := by
  constructor
  · intro h
    simp [close, h]
  · intro c hc hf
    obtain ⟨o, p, t, d, k, cn⟩ := r
    simp only at hc
    subst hc
    by_cases hcl : c.closed
    · have hcl' : c.closed = true := hcl
      refine ⟨⟨o, p, t, d, k, some c⟩, ?_, ?_⟩
      · simp [close, connClose, hcl', Except.map]
      · simp [close, connClose, hcl', Except.map]
    · have hcl' : c.closed = false := by simpa using hcl
      refine ⟨⟨o, p, t, d, k, some { c with closed := true }⟩, ?_, ?_⟩
      · simp [close, connClose, hcl', hf, Except.map]
      · simp [close, connClose, Except.map]

/-- C9 amended, witnessed: closing a handle-less recorder succeeds, and a
recorder with a healthy handle closes successfully twice. -/
theorem C9_close_behavior_witness :
    close (freshRecorderAt "jobs.md" "id" "data")
        = .ok (freshRecorderAt "jobs.md" "id" "data") ∧
    ∃ r2, close dbRecorder0 = .ok r2 ∧ close r2 = .ok r2 :=
  ⟨(C9_close_behavior (freshRecorderAt "jobs.md" "id" "data")).1 rfl,
   (C9_close_behavior dbRecorder0).2 { closed := false, failOnClose := false } rfl rfl⟩

end DataRec

namespace DataRec

/-- `DataRecorder._record_to_json` (lines 267–295): empty buffer is a
no-op; when the file exists and the known-key index is non-empty, the prior
content is parsed and the pending buffer appended to it (a concatenation,
not a deduplicated merge), a parse failure being swallowed so that only the
pending buffer is written; otherwise just the pending buffer is written. -/
def recordToJson (prior : Artifact) (existing_keys : List String) (data : List Rec) :
    Artifact :=
  if data.isEmpty then prior
  else
    let final_data :=
      if prior.existsOnDisk && !existing_keys.isEmpty then
        match prior with
        | .jsonList existing => existing ++ data
        | _ => data
      else data
    .jsonList final_data

/-- `_record_to_sqlite` at the artifact level: a missing file was created
empty by `sqlite3.connect` at construction time; bytes that are not a
SQLite database make the first `cursor.execute` raise, which the method's
`except` swallows (rollback — no change). -/
def recordToSqliteArtifact (prior : Artifact) (pk tbl : String) (data : List Rec) :
    Artifact :=
  if data.isEmpty then prior
  else
    match prior with
    | .sqliteFile db => .sqliteFile (recordToSqlite pk tbl data db)
    | .missing => .sqliteFile (recordToSqlite pk tbl data emptyDb)
    | _ => prior

/-- `DataRecorder._record_to_excel` (lines 398–463): empty buffer is a
no-op; a missing file gets a new workbook with one sheet named after
`db_table` holding a header row then the data rows; in an existing workbook
the rows are appended below the sheet named `db_table` (or the active —
first — sheet, retitled), a header being written only when the sheet has no
rows (`sheet.max_row > 0` modelled as grid non-emptiness); bytes `openpyxl`
cannot load raise, the exception is swallowed, the file is unchanged. -/
def recordToExcel (prior : Artifact) (tbl : String) (data : List Rec) : Artifact :=
  if data.isEmpty then prior
  else
    let fieldnames := sortedFieldUnion data
    let dataRows := data.map fun item => fieldnames.map fun f => (getField item f).getD ""
    match prior with
    | .missing => .excelFile [(tbl, [fieldnames] ++ dataRows)]
    | .excelFile wb =>
        match wb.find? (fun s => s.1 == tbl) with
        | some (n, rows) =>
            let newRows := if rows.isEmpty then [fieldnames] ++ dataRows else rows ++ dataRows
            .excelFile (wb.map fun s => if s.1 == tbl then (n, newRows) else s)
        | none =>
            match wb with
            | [] => .excelFile [(tbl, [fieldnames] ++ dataRows)]
            | (_, rows) :: rest =>
                let newRows := if rows.isEmpty then [fieldnames] ++ dataRows else rows ++ dataRows
                .excelFile ((tbl, newRows) :: rest)
    | _ => prior

/-- `DataRecorder.record` (lines 169–209): with an empty pending buffer it
prints "没有数据需要记录" and returns before any dispatch, touching
nothing.  Otherwise the format tag — or one derived from the target
extension, JSON by default — selects the serializer; an unsupported tag
only prints a message. -/
def record (r : DataRecorder) (file_format : Option String)
    (remove_columns : Option (List String)) (prior : Artifact) : Artifact :=
  if r.data.isEmpty then prior
  else
    let fmt :=
      match file_format with
      | some f => f
      | none =>
          if endsWith r.output_file ".db" then "sqlite"
          else if endsWith r.output_file ".csv" then "csv"
          else if endsWith r.output_file ".json" then "json"
          else if endsWith r.output_file ".md" then "markdown"
          else if endsWith r.output_file ".xlsx" || endsWith r.output_file ".xls" then "excel"
          else "json"
    if fmt.toLower = "csv" then recordToCsv prior r.existing_keys r.data
    else if fmt.toLower = "json" then recordToJson prior r.existing_keys r.data
    else if fmt.toLower = "markdown" then recordToMarkdown prior r.data remove_columns
    else if fmt.toLower = "sqlite" then recordToSqliteArtifact prior r.primary_key r.db_table r.data
    else if fmt.toLower = "excel" then recordToExcel prior r.db_table r.data
    else prior

/-- C10: with an empty pending buffer — in particular right after
`clear_data` — `record` returns before any dispatch, so the target artifact
is unchanged for every format tag and column filter (no file, table or
sheet is created). -/
theorem C10_empty_buffer_no_write :
    (∀ (r : DataRecorder) (fmt : Option String) (rc : Option (List String)) (prior : Artifact),
      r.data = [] → record r fmt rc prior = prior) ∧
    (∀ (r : DataRecorder) (fmt : Option String) (rc : Option (List String)) (prior : Artifact),
      record (clear_data r) fmt rc prior = prior) := by
  constructor
  · intro r fmt rc prior h
    simp [record, h]
  · intro r fmt rc prior
    simp [record, clear_data]

/-- C10 witnessed: a recorder with an empty buffer leaves an existing CSV
artifact untouched under an explicit "csv" flush. -/
theorem C10_empty_buffer_no_write_witness :
    record (freshRecorderAt "jobs.csv" "id" "data") (some "csv") none
        (.csvFile ["id"] [["1"]])
      = .csvFile ["id"] [["1"]] :=
  C10_empty_buffer_no_write.1 (freshRecorderAt "jobs.csv" "id" "data") (some "csv") none
    (.csvFile ["id"] [["1"]]) rfl

end DataRec
